import Mathlib

/-!
Shallow embedding of the motionEye request-orchestration layer
(`src/handlers.py`): the signature authenticator, the authorization
guard, the bulk configuration committer, remote-camera reconciliation,
media previews, the time-lapse job tracker and local camera listing,
together with theorems settling the specification claims about them.
-/

namespace MotionEye

/-! ### Python-style values and dictionaries -/

/-- A JSON-ish Python value: booleans, strings and integers cover every
field the embedded handlers inspect. -/
inductive JVal
  | b (v : Bool)
  | s (v : String)
  | n (v : Int)
deriving DecidableEq, Repr

/-- Python truthiness of a value (`False`, `''` and `0` are falsy). -/
def JVal.truthy : JVal → Bool
  | .b v => v
  | .s v => v != ""
  | .n v => v != 0

/-- A Python dict with string keys, as an association list in insertion
order (first binding wins on lookup; keys are unique in real dicts). -/
abbrev Dict := List (String × JVal)

/-- Python `d.get(k)` / `d[k]`: the first binding of `k`, if any. -/
def dget (d : Dict) (k : String) : Option JVal := List.lookup k d

/-- Python `k in d` / `d.has_key(k)`. -/
def dhas (d : Dict) (k : String) : Bool := (dget d k).isSome

/-- Python `d[k] = v`: replace the binding in place if the key exists,
otherwise append it. -/
def dset (d : Dict) (k : String) (v : JVal) : Dict :=
  if dhas d k then d.map (fun p => if p.1 = k then (k, v) else p) else d ++ [(k, v)]

/-- Python truthiness of an optional string (`None` and `''` are falsy). -/
def optTruthy : Option String → Bool
  | none => false
  | some st => st != ""

/-- Python `a or b` on optional strings: keep `a` when truthy, else `b`. -/
def pyOr (a b : Option String) : Option String := if optTruthy a then a else b

/-! ### Signature authenticator (`BaseHandler.get_current_user`) -/

/-- The role produced by authentication. -/
inductive Role
  | admin
  | normal
deriving DecidableEq, Repr

/-- The process-wide credential slots read from the main configuration
(`config.get_main()`: keys `@admin_username`, `@admin_password`,
`@normal_username`, `@normal_password`; an absent key reads as `None`). -/
structure MainConfig where
  adminUsername : Option String
  adminPassword : Option String
  normalUsername : Option String
  normalPassword : Option String
deriving DecidableEq, Repr

/-- The authentication-relevant parts of an incoming request:
`method`, `uri` and `body`, plus the `_username`, `_signature` and
`_login` request arguments (absent arguments read as `None`). -/
structure Request where
  method : String
  uri : String
  body : String
  username : Option String
  signature : Option String
  loginArg : Option String
deriving DecidableEq, Repr

/-- The authenticator `BaseHandler.get_current_user`.  `cs` abstracts
`utils.compute_signature(method, uri, body, password)`, which lives
outside this file.  The second component of the result records whether
an authentication failure was logged for the attempted username. -/
def getCurrentUser (cs : String → String → String → Option String → String)
    (cfg : MainConfig) (req : Request) : Option Role × Bool :=
  let login := req.loginArg == some "true"
  if req.username == cfg.adminUsername &&
      req.signature == some (cs req.method req.uri req.body cfg.adminPassword) then
    (some .admin, false)
  else if !optTruthy req.username && !optTruthy cfg.normalPassword then
    (some .normal, false)
  else if req.username == cfg.normalUsername &&
      req.signature == some (cs req.method req.uri req.body cfg.normalPassword) then
    (some .normal, false)
  else if optTruthy req.username && req.username != some "_" && login then
    (none, true)
  else
    (none, false)

/-- The supplied username and signature match the admin credential. -/
def matchesAdminCredential (cs : String → String → String → Option String → String)
    (cfg : MainConfig) (req : Request) : Bool :=
  req.username == cfg.adminUsername &&
    req.signature == some (cs req.method req.uri req.body cfg.adminPassword)

/-- The supplied username and signature match the normal credential. -/
def matchesNormalCredential (cs : String → String → String → Option String → String)
    (cfg : MainConfig) (req : Request) : Bool :=
  req.username == cfg.normalUsername &&
    req.signature == some (cs req.method req.uri req.body cfg.normalPassword)

/-- No username was supplied and the normal-role password is empty or
unset, so the request gets open normal access. -/
def openAccessNormal (cfg : MainConfig) (req : Request) : Bool :=
  !optTruthy req.username && !optTruthy cfg.normalPassword

/-- An explicit failed login attempt: a username other than `_` was
supplied together with the `_login` flag. -/
def explicitFailedLogin (req : Request) : Bool :=
  optTruthy req.username && req.username != some "_" && (req.loginArg == some "true")

/-! ### Authorization guard (`BaseHandler.auth`) -/

/-- Outcome of an auth-guarded handler invocation: either the
unauthorized JSON payload `{error, prompt}` or the handler body's
result. -/
inductive HandlerOutcome (α : Type)
  | unauthorized (error : String) (prompt : Bool)
  | executed (result : α)
deriving DecidableEq, Repr

/-- The wrapper produced by `BaseHandler.auth(admin=, prompt=)`.
`adminArg` is the request's `_admin` argument and `user` the
authenticated role; the guarded handler body is passed lazily so that
the result shows whether it ran. -/
def authWrapper {α : Type} (admin prompt : Bool) (user : Option Role)
    (adminArg : Option String) (handler : Unit → α) : HandlerOutcome α :=
  let adm := adminArg == some "true"
  if user.isNone || (user != some Role.admin && (admin || adm)) then
    .unauthorized "unauthorized" prompt
  else
    .executed (handler ())

/-! ### Bulk configuration committer (`ConfigHandler.set_config`) -/

/-- The `{reload, reboot, restart}` result of `set_main_config` on one
main-config payload. -/
structure MainResult where
  reload : Bool
  reboot : Bool
  restart : Bool
deriving DecidableEq, Repr

/-- The `(error, restart)` pair a camera item passes to the completion
callback `check_finished`. -/
structure CamReport where
  error : Option String
  restart : Bool
deriving DecidableEq, Repr

/-- Main-config dictionaries (`config.get_main()` and the result of
`config.main_ui_to_dict`): association lists of string-valued fields. -/
abbrev SDict := List (String × String)

/-- Python `d.get(k)` on a main-config dictionary. -/
def sget (d : SDict) (k : String) : Option String := List.lookup k d

/-- Python `d.get(k, '')` on a main-config dictionary. -/
def sgetD (d : SDict) (k : String) : String := (List.lookup k d).getD ""

/-- The function `set_main_config` with its external collaborators as parameters:
`oldMain` is `config.get_main()`, `newMain` the committed payload after
`config.main_ui_to_dict`, `additionalRebootNames` the `'@_' + name`
keys of the reboot-triggering additional configs, and `camerasLocal`
the is-local flags of the configured cameras (`restart` is set once per
local camera re-derived after a normal-credential change). -/
def setMainConfig (enableReboot : Bool) (oldMain newMain : SDict)
    (additionalRebootNames : List String) (camerasLocal : List Bool) : MainResult :=
  let oldAdminCredentials :=
    sgetD oldMain "@admin_username" ++ ":" ++ sgetD oldMain "@admin_password"
  let oldNormalCredentials :=
    sgetD oldMain "@normal_username" ++ ":" ++ sgetD oldMain "@normal_password"
  let adminCredentials :=
    sgetD newMain "@admin_username" ++ ":" ++ sgetD newMain "@admin_password"
  let normalCredentials :=
    sgetD newMain "@normal_username" ++ ":" ++ sgetD newMain "@normal_password"
  let rebootConfigNames := additionalRebootNames ++ ["@admin_password"]
  let reboot := rebootConfigNames.any (fun k => sget oldMain k != sget newMain k)
  let reload := adminCredentials != oldAdminCredentials
  let restart := (normalCredentials != oldNormalCredentials) && camerasLocal.any id
  { reload := reload, reboot := reboot && enableReboot, restart := restart }

/-- The mutable cells of the bulk committer: `reload` and the boxed
`reboot`/`restart`/`error`, the completion counter `so_far`, and a
count of `finish()` invocations. -/
structure CommitState where
  reload : Bool
  reboot : Bool
  restart : Bool
  error : Option String
  soFar : Nat
  finishCalls : Nat
deriving DecidableEq, Repr

/-- The committer's initial state. -/
def initCommitState : CommitState := ⟨false, false, false, none, 0, 0⟩

/-- The callback `check_finished(e, r)`: fold one item's report into the aggregate,
count the completion, and invoke `finish()` once the count reaches the
number of items. -/
def checkFinished (total : Nat) (e : Option String) (r : Bool) (s : CommitState) : CommitState :=
  let s := { s with restart := s.restart || r, error := pyOr s.error e, soFar := s.soFar + 1 }
  if total ≤ s.soFar then { s with finishCalls := s.finishCalls + 1 } else s

/-- One iteration of the commit loop: a `main` key runs
`set_main_config` synchronously, folds its result into the aggregates
and feeds `check_finished(None, reload)` with the updated `reload`
accumulator; any other key is a camera item whose completion callback
delivers its `(error, restart)` report.  The payload semantics are
abstracted by `mainF`/`camF`, which stand for the external `config` and
`remote` collaborators. -/
def processItem {α : Type} (total : Nat) (mainF : α → MainResult)
    (camF : String → α → CamReport) (s : CommitState) (item : String × α) : CommitState :=
  if item.1 = "main" then
    let result := mainF item.2
    let s := { s with reload := result.reload || s.reload,
                      reboot := result.reboot || s.reboot,
                      restart := result.restart || s.restart }
    checkFinished total none s.reload s
  else
    let rep := camF item.1 item.2
    checkFinished total rep.error rep.restart s

/-- The sort `items.sort(key=lambda (key, cfg): key != 'main')`:
Python's stable sort on the boolean key, which moves the main-config
entry first while keeping the relative order of the camera entries. -/
def sortMainFirst {α : Type} (items : List (String × α)) : List (String × α) :=
  items.mergeSort (fun p q => !(p.1 != "main") || (q.1 != "main"))

/-- The multiple-camera-configs branch of `ConfigHandler.set_config`
(`camera_id == 0`): sort the update items main-first, then process each
in order, fanning completions into the aggregate state. -/
def runItems {α : Type} (mainF : α → MainResult) (camF : String → α → CamReport)
    (items : List (String × α)) : CommitState :=
  (sortMainFirst items).foldl (processItem items.length mainF camF) initCommitState

/-- The JSON body of the commit response: `{reload, reboot, error}`. -/
structure CommitResponse where
  reload : Bool
  reboot : Bool
  error : Option String
deriving DecidableEq, Repr

/-- Observable effects of `finish()`: the response body, whether a
delayed host reboot was scheduled (and its delay in seconds), and
whether the local motion daemon was stopped / started. -/
structure FinishEffects where
  response : CommitResponse
  rebootDelaySeconds : Option Nat
  motionStopped : Bool
  motionStarted : Bool
deriving DecidableEq, Repr

/-- The tail of `finish()` after the reboot branch: stop the motion
daemon when the restart flag is set (the start also consults the
SMB-mount collaborator), then respond with `{reload, reboot, error}`. -/
def finishTail (smbShares smbStart : Bool) (s : CommitState) : FinishEffects :=
  { response := ⟨s.reload, s.reboot, s.error⟩,
    rebootDelaySeconds := none,
    motionStopped := s.restart,
    motionStarted := s.restart && (if smbShares then smbStart else true) }

/-- The finalizer `finish()`: with the reboot flag set and reboot capability enabled,
schedule `powerctl.reboot` after 2 seconds and return
`{reload: False, reboot: True, error: None}` at once; otherwise clear
the reboot flag and fall through to the restart tail. -/
def finishCommit (enableReboot smbShares smbStart : Bool) (s : CommitState) : FinishEffects :=
  if s.reboot then
    if enableReboot then
      { response := ⟨false, true, none⟩,
        rebootDelaySeconds := some 2,
        motionStopped := false,
        motionStarted := false }
    else
      finishTail smbShares smbStart { s with reboot := false }
  else
    finishTail smbShares smbStart s

/-- The whole bulk commit for a non-empty update mapping: fold all
items into the aggregate, then apply the finalization that the last
completion triggers. -/
def setConfigBulk {α : Type} (enableReboot smbShares smbStart : Bool)
    (mainF : α → MainResult) (camF : String → α → CamReport)
    (items : List (String × α)) : FinishEffects :=
  finishCommit enableReboot smbShares smbStart (runItems mainF camF items)

/-- What one update item reports towards the aggregate restart flag: a
camera item its restart report, a main entry its `restart` result — or
its `reload` result, which the completion call
`check_finished(None, reload)` folds into the same flag. -/
def restartContribution {α : Type} (mainF : α → MainResult)
    (camF : String → α → CamReport) (it : String × α) : Bool :=
  if it.1 = "main" then (mainF it.2).restart || (mainF it.2).reload
  else (camF it.1 it.2).restart

/-- What one update item reports towards the aggregate error: a main
entry always passes `None`, a camera item its error report. -/
def errorContribution {α : Type} (mainF : α → MainResult)
    (camF : String → α → CamReport) (it : String × α) : Bool :=
  if it.1 = "main" then false else optTruthy (camF it.1 it.2).error

/-! ### Remote-camera branch of `set_camera_config` -/

/-- Outcome of the remote-camera branch of `set_camera_config`: the
local mirror written back via `config.set_camera`, the payload pushed
to the peer via `remote.set_config` (absent when nothing is pushed),
and the `(error, restart)` report delivered to the completion
callback. -/
structure RemoteSetOutcome where
  newLocal : Dict
  pushedPayload : Option Dict
  report : CamReport
deriving DecidableEq, Repr

/-- The remote-camera branch of `set_camera_config`: copy the payload's
`enabled` flag onto the local mirror's `@enabled` and write it back; if
the payload has a `name` key, force its `enabled` field to `True` and
push it to the peer (whose callback delivers `remoteError` with a
no-restart report), otherwise complete immediately with no error and no
restart.  `none` models the `KeyError` raised when the payload lacks
`enabled`. -/
def setCameraConfigRemote (localCfg uiCfg : Dict) (remoteError : Option String) :
    Option RemoteSetOutcome :=
  match dget uiCfg "enabled" with
  | none => none
  | some v =>
    let newLocal := dset localCfg "@enabled" v
    if dhas uiCfg "name" then
      some { newLocal := newLocal,
             pushedPayload := some (dset uiCfg "enabled" (JVal.b true)),
             report := ⟨remoteError, false⟩ }
    else
      some { newLocal := newLocal, pushedPayload := none, report := ⟨none, false⟩ }

/-! ### Remote-camera reconciliation during listing -/

/-- The key rewrite `key.replace('@', '')` applied when merging a local
camera record into a remote UI config: every `@` is removed. -/
def stripAt (k : String) : String := String.mk (k.toList.filter (fun c => c != '@'))

/-- The merge loop `for key, value in local_config.items():
remote_ui_config[key.replace('@', '')] = value`. -/
def mergeLocal (remoteUi localCfg : Dict) : Dict :=
  localCfg.foldl (fun acc p => dset acc (stripAt p.1) p.2) remoteUi

/-- Outcome of the reconciliation step: the record written back via
`config.set_camera` (if any — the step never writes to the remote
peer), and the merged entry appended to the listing. -/
structure ReconcileOutcome where
  localWrite : Option Dict
  merged : Dict
deriving DecidableEq, Repr

/-- The success branch of the `on_response_builder` callback in
`ConfigHandler.list_cameras`: stamp the camera id, reconcile the
`enabled` flags (peer-disabled with mirror-enabled writes the mirror
back disabled; peer-enabled with mirror-disabled suppresses the flag in
the merged view only), then merge the local record over the remote UI
config.  `none` models the `KeyError` when an enabled flag is
missing. -/
def reconcileRemoteListing (cameraId : Int) (localCfg remoteUi : Dict) :
    Option ReconcileOutcome :=
  match dget remoteUi "enabled", dget localCfg "@enabled" with
  | some re, some le =>
    let remoteUi := dset remoteUi "id" (JVal.n cameraId)
    if !re.truthy && le.truthy then
      let localCfg := dset localCfg "@enabled" (JVal.b false)
      some { localWrite := some localCfg, merged := mergeLocal remoteUi localCfg }
    else if re.truthy && !le.truthy then
      let remoteUi := dset remoteUi "enabled" (JVal.b false)
      some { localWrite := none, merged := mergeLocal remoteUi localCfg }
    else
      some { localWrite := none, merged := mergeLocal remoteUi localCfg }
  | _, _ => none

/-! ### Time-lapse job tracker (`PictureHandler.timelapse`, start) -/

/-- The tracker status returned by `mediafiles.check_timelapse_movie()`:
`progress` is `-1` when no job is running, else a percentage; `data`
holds a finished movie, if any. -/
structure TimelapseStatus where
  progress : Int
  data : Option String
deriving DecidableEq, Repr

/-- Observable outcome of the start branch: whether
`mediafiles.make_timelapse_movie` was invoked, and the `progress` field
of the JSON response. -/
structure TimelapseStartOutcome where
  jobStarted : Bool
  responseProgress : Int
deriving DecidableEq, Repr

/-- The local-camera start branch of `PictureHandler.timelapse`: if the
tracker reports a running job (`progress != -1`) respond with its
progress and start nothing; otherwise start the render and respond with
progress `-1`. -/
def timelapseStartLocal (status : TimelapseStatus) : TimelapseStartOutcome :=
  if status.progress != -1 then
    { jobStarted := false, responseProgress := status.progress }
  else
    { jobStarted := true, responseProgress := -1 }

/-! ### Media previews (`PictureHandler.preview`, `MovieHandler.preview`) -/

/-- The local-camera branch of `PictureHandler.preview`: a truthy
preview is served as `image/jpeg`, otherwise the `no-preview.svg`
placeholder is served as `image/svg+xml`.  The result pairs the
Content-Type header with the body; `placeholder` is the content of
`no-preview.svg`. -/
def previewPictureLocal (placeholder : String) (content : Option String) :
    String × String :=
  if optTruthy content then ("image/jpeg", content.getD "")
  else ("image/svg+xml", placeholder)

/-- The remote-camera branch of `PictureHandler.preview`: the callback
branches only on the content — a peer error still yields the
placeholder, never an error payload. -/
def previewPictureRemote (placeholder : String) (content : Option String)
    (err : Option String) : String × String :=
  if optTruthy content then ("image/jpeg", content.getD "")
  else ("image/svg+xml", placeholder)

/-- The local-camera branch of `MovieHandler.preview`. -/
def previewMovieLocal (placeholder : String) (content : Option String) :
    String × String :=
  if optTruthy content then ("image/jpeg", content.getD "")
  else ("image/svg+xml", placeholder)

/-- The remote-camera branch of `MovieHandler.preview`. -/
def previewMovieRemote (placeholder : String) (content : Option String)
    (err : Option String) : String × String :=
  if optTruthy content then ("image/jpeg", content.getD "")
  else ("image/svg+xml", placeholder)

/-! ### Local camera listing (`ConfigHandler.list_cameras`) -/

/-- What a configured camera looks like to the listing: a local motion
camera with its UI config, or a remote camera with its local mirror and
the peer's reply (`none` when the peer query fails). -/
inductive CamSource
  | localCam (uiConfig : Dict)
  | remoteCam (localCfg : Dict) (peer : Option Dict)
deriving DecidableEq, Repr

/-- Truthiness of the local mirror's `@enabled` flag
(`local_config.get('@enabled')`; an absent key is falsy). -/
def localEnabledFlag (lc : Dict) : Bool :=
  match dget lc "@enabled" with
  | some v => v.truthy
  | none => false

/-- The placeholder entry appended for a remote camera whose peer
responded with an error (or was never contacted): the camera id, a name
derived from the peer's URL, `enabled: False` and unit framerates. -/
def placeholderEntry (prettyUrl : Dict → String) (cameraId : Int) (lc : Dict) : Dict :=
  [("id", JVal.n cameraId),
   ("name", JVal.s ("&lt;" ++ prettyUrl lc ++ "&gt;")),
   ("enabled", JVal.b false),
   ("streaming_framerate", JVal.n 1),
   ("framerate", JVal.n 1)]

/-- The listing entry produced for one configured camera: a local
camera contributes its UI config; a remote camera is queried only when
enabled locally (or forced) and contributes the reconciled merge on
success and the placeholder on error; a disabled, unforced remote
camera takes the error path without being contacted.  `none` models a
listing whose callback died on a malformed peer reply and never
completes.  `prettyUrl` abstracts `remote.pretty_camera_url`. -/
def cameraEntry (prettyUrl : Dict → String) (force : Bool) (cameraId : Int)
    (src : CamSource) : Option Dict :=
  match src with
  | .localCam ui => some ui
  | .remoteCam lc peer =>
    if localEnabledFlag lc || force then
      match peer with
      | some remoteUi => (reconcileRemoteListing cameraId lc remoteUi).map (fun o => o.merged)
      | none => some (placeholderEntry prettyUrl cameraId lc)
    else
      some (placeholderEntry prettyUrl cameraId lc)

/-- The fan-in of the listing: every configured camera contributes
exactly one entry; the listing completes only when all have. -/
def entryList (prettyUrl : Dict → String) (force : Bool) :
    List (Int × CamSource) → Option (List Dict)
  | [] => some []
  | c :: rest =>
    match cameraEntry prettyUrl force c.1 c.2, entryList prettyUrl force rest with
    | some e, some t => some (e :: t)
    | _, _ => none

/-- The id a listing entry sorts by (`cameras.sort(key=lambda c:
c['id'])`); entries always carry an integer id. -/
def idOf (d : Dict) : Int :=
  match dget d "id" with
  | some (JVal.n i) => i
  | _ => 0

/-- The final sort of the listing by camera id. -/
def sortById (cams : List Dict) : List Dict :=
  cams.mergeSort (fun a b => decide (idOf a ≤ idOf b))

/-- The local (`motionEye`) branch of `ConfigHandler.list_cameras`:
collect one entry per configured camera, then respond with them sorted
by id. -/
def listCamerasLocal (prettyUrl : Dict → String) (force : Bool)
    (cams : List (Int × CamSource)) : Option (List Dict) :=
  (entryList prettyUrl force cams).map sortById

/-! ### Claim theorems: authentication and authorization -/

/-- C1: authentication resolves in the fixed order admin-credential
match, open normal access, normal-credential match, logged explicit
failure, silent failure: whoever matches the admin credential is
`admin`; otherwise open access or a normal-credential match gives
`normal`; otherwise an explicit login attempt with a username other
than `_` is logged and yields no role; otherwise no role, unlogged. -/
theorem getCurrentUser_resolution_order
    (cs : String → String → String → Option String → String)
    (cfg : MainConfig) (req : Request) :
    (matchesAdminCredential cs cfg req = true →
      getCurrentUser cs cfg req = (some Role.admin, false)) ∧
    (matchesAdminCredential cs cfg req = false → openAccessNormal cfg req = true →
      getCurrentUser cs cfg req = (some Role.normal, false)) ∧
    (matchesAdminCredential cs cfg req = false → openAccessNormal cfg req = false →
      matchesNormalCredential cs cfg req = true →
      getCurrentUser cs cfg req = (some Role.normal, false)) ∧
    (matchesAdminCredential cs cfg req = false → openAccessNormal cfg req = false →
      matchesNormalCredential cs cfg req = false → explicitFailedLogin req = true →
      getCurrentUser cs cfg req = (none, true)) ∧
    (matchesAdminCredential cs cfg req = false → openAccessNormal cfg req = false →
      matchesNormalCredential cs cfg req = false → explicitFailedLogin req = false →
      getCurrentUser cs cfg req = (none, false)) := by
  unfold getCurrentUser matchesAdminCredential matchesNormalCredential
    openAccessNormal explicitFailedLogin
  refine ⟨?_, ?_, ?_, ?_, ?_⟩ <;> intros <;> simp_all <;> split_ifs <;> simp_all

/-- C1 witness: a concrete request matching a concrete admin credential
authenticates as `admin` without a logged failure. -/
theorem getCurrentUser_resolution_order_witness :
    getCurrentUser (fun m u b p => m ++ u ++ b ++ p.getD "")
      ⟨some "ad", some "pw", none, some "npw"⟩
      ⟨"GET", "/x", "", some "ad", some "GET/xpw", none⟩ = (some Role.admin, false) :=
  (getCurrentUser_resolution_order (fun m u b p => m ++ u ++ b ++ p.getD "")
    ⟨some "ad", some "pw", none, some "npw"⟩
    ⟨"GET", "/x", "", some "ad", some "GET/xpw", none⟩).1 (by decide)

/-- C2: the authorization guard rejects with exactly
`{error := "unauthorized", prompt := prompt}` — without running the
handler body — whenever the role is absent, or the role is not admin
while the guard requires admin or the caller requested inline
elevation; otherwise the body runs. -/
theorem authWrapper_contract {α : Type} (admin prompt : Bool) (user : Option Role)
    (adminArg : Option String) (handler : Unit → α) :
    ((user = none ∨ (user ≠ some Role.admin ∧ (admin = true ∨ adminArg = some "true"))) →
      authWrapper admin prompt user adminArg handler =
        HandlerOutcome.unauthorized "unauthorized" prompt) ∧
    (user ≠ none → (user = some Role.admin ∨ (admin = false ∧ adminArg ≠ some "true")) →
      authWrapper admin prompt user adminArg handler =
        HandlerOutcome.executed (handler ())) := by
  unfold authWrapper
  constructor
  · rintro (rfl | ⟨hne, h⟩)
    · simp
    · cases user with
      | none => simp
      | some r =>
        have hr : r ≠ Role.admin := fun hr => hne (by simp [hr])
        rcases h with rfl | rfl <;> simp_all
  · rintro hne h
    rcases h with rfl | ⟨rfl, hne2⟩
    · simp
    · cases user with
      | none => exact absurd rfl hne
      | some r => simp_all

/-- C2 witness: with no authenticated role, a guarded handler body does
not run and the unauthorized payload carries the guard's prompt flag. -/
theorem authWrapper_contract_witness :
    authWrapper (α := Nat) true true none none (fun _ => 7) =
      HandlerOutcome.unauthorized "unauthorized" true :=
  (authWrapper_contract true true none none (fun _ => 7)).1 (Or.inl rfl)

/-! ### Claim theorems: bulk configuration committer -/

theorem sortMainFirst_pairwise {α : Type} (items : List (String × α)) :
    (sortMainFirst items).Pairwise
      (fun p q => (!(p.1 != "main") || (q.1 != "main")) = true) := by
  apply List.sorted_mergeSort
  · intro a b c hab hbc
    cases hA : (a.1 != "main") <;> cases hB : (b.1 != "main") <;>
      cases hC : (c.1 != "main") <;> simp_all
  · intro a b
    cases hA : (a.1 != "main") <;> cases hB : (b.1 != "main") <;> simp_all

theorem any_sortMainFirst {α : Type} (f : String × α → Bool) (items : List (String × α)) :
    (sortMainFirst items).any f = items.any f := by
  apply Bool.eq_iff_iff.mpr
  simp [sortMainFirst, List.any_eq_true, List.mem_mergeSort]

theorem processItem_soFar {α : Type} (total : Nat) (mainF : α → MainResult)
    (camF : String → α → CamReport) (s : CommitState) (it : String × α) :
    (processItem total mainF camF s it).soFar = s.soFar + 1 := by
  unfold processItem checkFinished
  split <;> dsimp only <;> split <;> rfl

theorem foldl_processItem_soFar {α : Type} (total : Nat) (mainF : α → MainResult)
    (camF : String → α → CamReport) (l : List (String × α)) (s : CommitState) :
    (l.foldl (processItem total mainF camF) s).soFar = s.soFar + l.length := by
  induction l generalizing s with
  | nil => simp
  | cons it t ih =>
    rw [List.foldl_cons, ih, processItem_soFar]
    simp; omega

theorem processItem_finishCalls {α : Type} (total : Nat) (mainF : α → MainResult)
    (camF : String → α → CamReport) (s : CommitState) (it : String × α) :
    (processItem total mainF camF s it).finishCalls =
      s.finishCalls + (if total ≤ s.soFar + 1 then 1 else 0) := by
  unfold processItem checkFinished
  split <;> dsimp only <;> split <;> simp_all

theorem foldl_processItem_finishCalls_zero {α : Type} (total : Nat)
    (mainF : α → MainResult) (camF : String → α → CamReport) (l : List (String × α))
    (s : CommitState) (h : s.soFar + l.length < total) :
    (l.foldl (processItem total mainF camF) s).finishCalls = s.finishCalls := by
  induction l generalizing s with
  | nil => simp
  | cons it t ih =>
    rw [List.foldl_cons, ih]
    · rw [processItem_finishCalls]
      simp at h
      rw [if_neg (by omega)]
      simp
    · rw [processItem_soFar]
      simp at h ⊢
      omega

theorem processItem_restart {α : Type} (total : Nat) (mainF : α → MainResult)
    (camF : String → α → CamReport) (s : CommitState) (it : String × α) :
    (processItem total mainF camF s it).restart =
      (s.restart || restartContribution mainF camF it ||
        (s.reload && (it.1 == "main"))) := by
  have haux : ∀ a b rs rl : Bool, ((rs || a) || (rl || b)) = (a || (rs || rl) || b) := by decide
  unfold processItem checkFinished restartContribution
  by_cases hm : it.1 = "main"
  · rw [if_pos hm, if_pos hm]
    have hb : (it.1 == "main") = true := by simp [hm]
    rw [hb, Bool.and_true]
    dsimp only
    split <;> exact haux s.restart s.reload (mainF it.2).restart (mainF it.2).reload
  · rw [if_neg hm, if_neg hm]
    have hb : (it.1 == "main") = false := by simp [hm]
    rw [hb, Bool.and_false, Bool.or_false]
    dsimp only
    split <;> rfl

theorem processItem_reload {α : Type} (total : Nat) (mainF : α → MainResult)
    (camF : String → α → CamReport) (s : CommitState) (it : String × α) :
    (processItem total mainF camF s it).reload =
      (s.reload || (if it.1 = "main" then (mainF it.2).reload else false)) := by
  unfold processItem checkFinished
  by_cases hm : it.1 = "main"
  · rw [if_pos hm, if_pos hm]
    dsimp only
    split <;> exact Bool.or_comm (mainF it.2).reload s.reload
  · rw [if_neg hm, if_neg hm]
    dsimp only
    rw [Bool.or_false]
    split <;> rfl

theorem foldl_processItem_restart {α : Type} (total : Nat) (mainF : α → MainResult)
    (camF : String → α → CamReport) (l : List (String × α)) (s : CommitState) :
    (l.foldl (processItem total mainF camF) s).restart =
      (s.restart || l.any (restartContribution mainF camF) ||
        (s.reload && l.any (fun it => it.1 == "main"))) := by
  induction l generalizing s with
  | nil => simp
  | cons it t ih =>
    rw [List.foldl_cons, ih, processItem_restart, processItem_reload,
      List.any_cons, List.any_cons]
    by_cases hm : it.1 = "main"
    · have hb : (it.1 == "main") = true := by simp [hm]
      have hc : restartContribution mainF camF it =
          ((mainF it.2).restart || (mainF it.2).reload) := by
        unfold restartContribution
        rw [if_pos hm]
      rw [hb, if_pos hm, hc]
      cases s.restart <;> cases s.reload <;> cases (mainF it.2).restart <;>
        cases (mainF it.2).reload <;>
        cases ht : t.any (restartContribution mainF camF) <;>
        cases hu : t.any (fun p => p.1 == "main") <;> rfl
    · have hb : (it.1 == "main") = false := by simp [hm]
      rw [hb, if_neg hm]
      cases s.restart <;> cases s.reload <;>
        cases hc : restartContribution mainF camF it <;>
        cases ht : t.any (restartContribution mainF camF) <;>
        cases hu : t.any (fun p => p.1 == "main") <;> rfl

theorem optTruthy_pyOr (a b : Option String) :
    optTruthy (pyOr a b) = (optTruthy a || optTruthy b) := by
  unfold pyOr
  cases h : optTruthy a <;> simp [h]

theorem processItem_errorTruthy {α : Type} (total : Nat) (mainF : α → MainResult)
    (camF : String → α → CamReport) (s : CommitState) (it : String × α) :
    optTruthy (processItem total mainF camF s it).error =
      (optTruthy s.error || errorContribution mainF camF it) := by
  unfold processItem checkFinished errorContribution
  by_cases hm : it.1 = "main"
  · rw [if_pos hm, if_pos hm]
    dsimp only
    split <;> (rw [optTruthy_pyOr]; try rfl)
  · rw [if_neg hm, if_neg hm]
    dsimp only
    split <;> (rw [optTruthy_pyOr]; try rfl)

theorem foldl_processItem_errorTruthy {α : Type} (total : Nat) (mainF : α → MainResult)
    (camF : String → α → CamReport) (l : List (String × α)) (s : CommitState) :
    optTruthy (l.foldl (processItem total mainF camF) s).error =
      (optTruthy s.error || l.any (errorContribution mainF camF)) := by
  induction l generalizing s with
  | nil => simp
  | cons it t ih =>
    rw [List.foldl_cons, ih, processItem_errorTruthy]
    simp [Bool.or_assoc]

/-- C3: in a bulk commit, the main-config entry is processed before any
camera entry, whatever the insertion order: after the committer's sort,
every entry preceding a `main` entry is itself a `main` entry, and the
committer folds over exactly that sorted order. -/
theorem setConfig_main_processed_first {α : Type} (items : List (String × α)) :
    (sortMainFirst items).Pairwise (fun p q => q.1 = "main" → p.1 = "main") ∧
    ∀ (mainF : α → MainResult) (camF : String → α → CamReport),
      runItems mainF camF items =
        (sortMainFirst items).foldl (processItem items.length mainF camF) initCommitState := by
  refine ⟨(sortMainFirst_pairwise items).imp ?_, fun _ _ => rfl⟩
  intro a b hab hb
  simp [hb] at hab
  simpa using hab

/-- C3 witness: on a concrete two-entry mapping inserted camera-first,
the sorted processing order still has the main entry first. -/
theorem setConfig_main_processed_first_witness :
    (sortMainFirst [("7", (0 : Nat)), ("main", 1)]).Pairwise
      (fun p q => q.1 = "main" → p.1 = "main") :=
  (setConfig_main_processed_first [("7", (0 : Nat)), ("main", 1)]).1

/-- C4 counterexample: a bulk commit whose only item is a main entry
reporting `restart = false` (with `reload = true`) still finishes with
the aggregate restart flag set, because the committer passes the reload
accumulator as the restart argument of the main entry's completion
call. -/
theorem runItems_restart_counterexample :
    (runItems (fun _ : Unit => ⟨true, false, false⟩) (fun _ _ => ⟨none, false⟩)
        [("main", ())]).restart = true ∧
    ((fun _ : Unit => (⟨true, false, false⟩ : MainResult)) ()).restart = false ∧
    ((fun (_ : String) (_ : Unit) => (⟨none, false⟩ : CamReport)) "main" ()).restart = false := by
  refine ⟨?_, rfl, rfl⟩
  simp only [runItems, sortMainFirst, List.mergeSort_singleton]
  rfl

/-- C4 (amended): for a non-empty update mapping, the aggregate restart
flag is true iff some item reports restart true or a main entry's
result set reload (the committer folds the reload accumulator into the
restart flag on the main entry's completion); the aggregate error is
truthy iff some item reports a truthy error; every item's completion is
counted exactly once; and finalization runs exactly once, only after
the last completion. -/
theorem runItems_aggregate {α : Type} (mainF : α → MainResult)
    (camF : String → α → CamReport) (items : List (String × α)) (h : items ≠ []) :
    (runItems mainF camF items).restart = items.any (restartContribution mainF camF) ∧
    optTruthy (runItems mainF camF items).error = items.any (errorContribution mainF camF) ∧
    (runItems mainF camF items).soFar = items.length ∧
    (runItems mainF camF items).finishCalls = 1 ∧
    ∀ k, k < items.length →
      (((sortMainFirst items).take k).foldl (processItem items.length mainF camF)
        initCommitState).finishCalls = 0 := by
  have hlen : (sortMainFirst items).length = items.length := List.length_mergeSort items
  refine ⟨?_, ?_, ?_, ?_, ?_⟩
  · rw [runItems, foldl_processItem_restart]
    simp [initCommitState, any_sortMainFirst]
  · rw [runItems, foldl_processItem_errorTruthy]
    simp [initCommitState, optTruthy, any_sortMainFirst]
  · rw [runItems, foldl_processItem_soFar, hlen]
    simp [initCommitState]
  · have hne : sortMainFirst items ≠ [] := by
      intro hnil
      apply h
      have := hlen
      rw [hnil] at this
      exact List.length_eq_zero.mp this.symm
    rw [runItems, ← List.dropLast_append_getLast hne, List.foldl_append]
    have hdl : (sortMainFirst items).dropLast.length = items.length - 1 := by
      rw [List.length_dropLast, hlen]
    have hn1 : 1 ≤ items.length := by
      rcases items with _ | ⟨a, t⟩
      · exact absurd rfl h
      · simp
    rw [List.foldl_cons, List.foldl_nil, processItem_finishCalls,
      foldl_processItem_finishCalls_zero, foldl_processItem_soFar, hdl]
    · rw [if_pos (by simp [initCommitState]; omega)]
      simp [initCommitState]
    · rw [hdl]
      simp [initCommitState]
      omega
  · intro k hk
    apply foldl_processItem_finishCalls_zero
    rw [List.length_take, hlen]
    simp [initCommitState]
    omega

/-- C4 witness: a single camera item reporting an error and a restart
yields those aggregates, one counted completion and one finalization. -/
theorem runItems_aggregate_witness :
    ([(("2" : String), ())] ≠ []) ∧
    (runItems (fun _ : Unit => ⟨false, false, false⟩)
        (fun _ _ => ⟨some "boom", true⟩) [("2", ())]).finishCalls = 1 :=
  ⟨by decide,
    (runItems_aggregate (fun _ : Unit => ⟨false, false, false⟩)
      (fun _ _ => ⟨some "boom", true⟩) [("2", ())] (by decide)).2.2.2.1⟩

/-- C5 counterexample: committing `{"main": {"admin_password": ...}}`
with reboot capability enabled responds with `reload = false`, not
`true`; and with reboot capability disabled the local motion daemon IS
stopped and restarted, because the reload flag is folded into the
restart accumulator on the main entry's completion. -/
theorem adminPasswordCommit_counterexample :
    (setConfigBulk true false false
        (fun _ : Unit => setMainConfig true
          [("@admin_username", "admin"), ("@admin_password", "oldpw")]
          [("@admin_username", "admin"), ("@admin_password", "newpw")] [] [true])
        (fun _ _ => ⟨none, false⟩) [("main", ())]).response.reload = false ∧
    (setConfigBulk false false false
        (fun _ : Unit => setMainConfig false
          [("@admin_username", "admin"), ("@admin_password", "oldpw")]
          [("@admin_username", "admin"), ("@admin_password", "newpw")] [] [true])
        (fun _ _ => ⟨none, false⟩) [("main", ())]).motionStopped = true := by
  constructor <;>
    (simp only [setConfigBulk, runItems, sortMainFirst, List.mergeSort_singleton]; rfl)

/-- C5 (amended): committing `{"main": {"admin_password": "newpw"}}`
with host-reboot capability enabled yields the response
`{reload: false, reboot: true, error: none}` and schedules a host
restart after a fixed 2-second delay without touching the daemon; with
reboot capability disabled it yields
`{reload: true, reboot: false, error: none}` and the local daemon is
stopped and started (the admin-credential change sets reload, which the
committer folds into the restart flag). -/
theorem adminPasswordCommit_effects :
    (setConfigBulk true false false
        (fun _ : Unit => setMainConfig true
          [("@admin_username", "admin"), ("@admin_password", "oldpw")]
          [("@admin_username", "admin"), ("@admin_password", "newpw")] [] [true])
        (fun _ _ => ⟨none, false⟩) [("main", ())]) =
      ⟨⟨false, true, none⟩, some 2, false, false⟩ ∧
    (setConfigBulk false false false
        (fun _ : Unit => setMainConfig false
          [("@admin_username", "admin"), ("@admin_password", "oldpw")]
          [("@admin_username", "admin"), ("@admin_password", "newpw")] [] [true])
        (fun _ _ => ⟨none, false⟩) [("main", ())]) =
      ⟨⟨true, false, none⟩, none, true, true⟩ := by
  constructor <;>
    (simp only [setConfigBulk, runItems, sortMainFirst, List.mergeSort_singleton]; rfl)

/-! ### Dictionary lemmas -/

theorem lookup_replace_self (d : Dict) (k : String) (v : JVal) :
    List.lookup k (d.map (fun p => if p.1 = k then (k, v) else p)) =
      (List.lookup k d).map (fun _ => v) := by
  induction d with
  | nil => rfl
  | cons a t ih =>
    obtain ⟨ak, av⟩ := a
    by_cases h : ak = k
    · subst h
      simp
    · have hb : (k == ak) = false := by simp [Ne.symm h]
      simp [List.lookup_cons, h, hb, ih]

theorem lookup_replace_ne (d : Dict) (k k2 : String) (v : JVal) (h : k2 ≠ k) :
    List.lookup k2 (d.map (fun p => if p.1 = k then (k, v) else p)) =
      List.lookup k2 d := by
  induction d with
  | nil => rfl
  | cons a t ih =>
    obtain ⟨ak, av⟩ := a
    by_cases hk : ak = k
    · subst hk
      have hb : (k2 == ak) = false := by simp [h]
      simp [List.lookup_cons, hb, ih]
    · simp [List.lookup_cons, hk, ih]

theorem lookup_append_of_none (d l : Dict) (k : String)
    (h : List.lookup k d = none) : List.lookup k (d ++ l) = List.lookup k l := by
  rw [List.lookup_append, h, Option.none_or]

theorem dget_dset_self (d : Dict) (k : String) (v : JVal) :
    dget (dset d k v) k = some v := by
  unfold dget dset
  by_cases h : dhas d k = true
  · rw [if_pos h, lookup_replace_self]
    unfold dhas dget at h
    cases hl : List.lookup k d
    · rw [hl] at h
      simp at h
    · simp
  · rw [if_neg h]
    unfold dhas dget at h
    have hl : List.lookup k d = none := by
      cases hlk : List.lookup k d
      · rfl
      · rw [hlk] at h
        simp at h
    rw [lookup_append_of_none d _ k hl]
    exact List.lookup_cons_self

theorem dget_dset_ne (d : Dict) (k k2 : String) (v : JVal) (h : k2 ≠ k) :
    dget (dset d k v) k2 = dget d k2 := by
  unfold dget dset
  by_cases hh : dhas d k = true
  · rw [if_pos hh, lookup_replace_ne d k k2 v h]
  · rw [if_neg hh]
    rw [List.lookup_append]
    have hb2 : (k2 == k) = false := by simp [h]
    have hb : List.lookup k2 [(k, v)] = none := by
      simp [List.lookup_cons, hb2]
    rw [hb, Option.or_none]

theorem mem_of_lookup_eq_some {l : Dict} {k : String} {v : JVal}
    (h : List.lookup k l = some v) : (k, v) ∈ l := by
  obtain ⟨l₁, l₂, rfl, -⟩ := List.lookup_eq_some_iff.mp h
  simp

theorem lookup_eq_of_mem_nodup {l : Dict} (hnd : (l.map Prod.fst).Nodup)
    {p : String × JVal} (hp : p ∈ l) : List.lookup p.1 l = some p.2 := by
  induction l with
  | nil => simp at hp
  | cons a t ih =>
    obtain ⟨ak, av⟩ := a
    simp only [List.map_cons, List.nodup_cons] at hnd
    rcases List.mem_cons.mp hp with rfl | hm
    · simp [List.lookup]
    · have hne : p.1 ≠ ak := by
        intro hcon
        apply hnd.1
        rw [← hcon]
        exact List.mem_map_of_mem Prod.fst hm
      have hb : (p.1 == ak) = false := by simp [hne]
      simp only [List.lookup, hb]
      exact ih hnd.2 hm

theorem mergeLocal_append (r l : Dict) (p : String × JVal) :
    mergeLocal r (l ++ [p]) = dset (mergeLocal r l) (stripAt p.1) p.2 := by
  unfold mergeLocal
  rw [List.foldl_append]
  rfl

theorem dget_mergeLocal (r : Dict) (l : Dict) (k : String) :
    dget (mergeLocal r l) k =
      (match l.reverse.find? (fun p => stripAt p.1 == k) with
        | some p => some p.2
        | none => dget r k) := by
  induction l using List.reverseRecOn with
  | nil => rfl
  | append_singleton t p ih =>
    rw [mergeLocal_append, List.reverse_append]
    simp only [List.reverse_singleton, List.singleton_append, List.find?_cons]
    by_cases hk : stripAt p.1 = k
    · have hb : (stripAt p.1 == k) = true := by simp [hk]
      rw [hb]
      subst hk
      exact dget_dset_self _ _ _
    · have hb : (stripAt p.1 == k) = false := by simp [hk]
      rw [hb]
      rw [dget_dset_ne _ _ _ _ (fun hcon => hk hcon.symm)]
      exact ih

/-! ### Claim theorems: remote-camera commit and reconciliation -/

/-- C6 counterexample: a payload carrying more than just the enabled
flag (`enabled` plus `framerate`) but no `name` key is NOT pushed to
the remote peer — the code's push condition is the presence of the
`name` key, not the presence of fields beyond `enabled`. -/
theorem setCameraConfigRemote_counterexample :
    (setCameraConfigRemote [("@enabled", JVal.b true), ("@host", JVal.s "peer")]
        [("enabled", JVal.b false), ("framerate", JVal.n 5)] none).map
      (fun o => o.pushedPayload) = some none ∧
    ([("enabled", JVal.b false), ("framerate", JVal.n 5)] : Dict).any
      (fun p => p.1 != "enabled") = true := by
  constructor <;> rfl

/-- C6 (amended): the remote-camera update writes exactly the payload's
enabled flag into the local mirror's `@enabled` (all other mirror
fields unchanged); the payload is pushed to the peer iff it contains
the `name` key (the code's proxy for a payload carrying more than just
the enabled flag); and any pushed payload has its `enabled` field
forced to true, all other fields as supplied. -/
theorem setCameraConfigRemote_contract (localCfg uiCfg : Dict)
    (remoteError : Option String) (v : JVal) (hv : dget uiCfg "enabled" = some v) :
    ∃ o, setCameraConfigRemote localCfg uiCfg remoteError = some o ∧
      dget o.newLocal "@enabled" = some v ∧
      (∀ k, k ≠ "@enabled" → dget o.newLocal k = dget localCfg k) ∧
      (o.pushedPayload.isSome = true ↔ dhas uiCfg "name" = true) ∧
      (∀ p, o.pushedPayload = some p → dget p "enabled" = some (JVal.b true) ∧
        ∀ k, k ≠ "enabled" → dget p k = dget uiCfg k) := by
  unfold setCameraConfigRemote
  rw [hv]
  dsimp only
  by_cases hn : dhas uiCfg "name" = true
  · rw [if_pos hn]
    refine ⟨_, rfl, dget_dset_self _ _ _, fun k hk => dget_dset_ne _ _ _ _ hk, ?_, ?_⟩
    · simpa using hn
    · intro p hp
      cases hp
      exact ⟨dget_dset_self _ _ _, fun k hk => dget_dset_ne _ _ _ _ hk⟩
  · rw [if_neg hn]
    refine ⟨_, rfl, dget_dset_self _ _ _, fun k hk => dget_dset_ne _ _ _ _ hk, ?_, ?_⟩
    · simpa using hn
    · intro p hp
      cases hp

/-- C6 witness: a payload with a `name` key is pushed with `enabled`
forced true while only `@enabled` changes on the local mirror. -/
theorem setCameraConfigRemote_contract_witness :
    ∃ o, setCameraConfigRemote [("@enabled", JVal.b true), ("@host", JVal.s "peer")]
        [("enabled", JVal.b false), ("name", JVal.s "cam")] none = some o ∧
      dget o.newLocal "@enabled" = some (JVal.b false) ∧
      (∀ k, k ≠ "@enabled" →
        dget o.newLocal k = dget [("@enabled", JVal.b true), ("@host", JVal.s "peer")] k) ∧
      (o.pushedPayload.isSome = true ↔
        dhas [("enabled", JVal.b false), ("name", JVal.s "cam")] "name" = true) ∧
      (∀ p, o.pushedPayload = some p → dget p "enabled" = some (JVal.b true) ∧
        ∀ k, k ≠ "enabled" →
          dget p k = dget [("enabled", JVal.b false), ("name", JVal.s "cam")] k) :=
  setCameraConfigRemote_contract [("@enabled", JVal.b true), ("@host", JVal.s "peer")]
    [("enabled", JVal.b false), ("name", JVal.s "cam")] none (JVal.b false) (by rfl)

/-- C7: during listing, a remote camera reported disabled by the peer
while locally enabled has its local mirror written back with
`@enabled = False`; in the reverse case (peer enabled, mirror disabled)
nothing is written — in particular nothing is ever pushed to the peer —
and the merged view's `enabled` field is the mirror's falsy flag. -/
theorem reconcileRemoteListing_contract (cameraId : Int) (localCfg remoteUi : Dict)
    (re le : JVal) (hre : dget remoteUi "enabled" = some re)
    (hle : dget localCfg "@enabled" = some le)
    (hkeys : ∀ p ∈ localCfg, stripAt p.1 = "enabled" → p.1 = "@enabled")
    (hnd : (localCfg.map Prod.fst).Nodup) :
    (re.truthy = false → le.truthy = true →
      ∃ o, reconcileRemoteListing cameraId localCfg remoteUi = some o ∧
        o.localWrite = some (dset localCfg "@enabled" (JVal.b false)) ∧
        dget (dset localCfg "@enabled" (JVal.b false)) "@enabled" =
          some (JVal.b false)) ∧
    (re.truthy = true → le.truthy = false →
      ∃ o, reconcileRemoteListing cameraId localCfg remoteUi = some o ∧
        o.localWrite = none ∧
        dget o.merged "enabled" = some le ∧ le.truthy = false) := by
  unfold reconcileRemoteListing
  rw [hre, hle]
  dsimp only
  constructor
  · intro hr hl
    have hc1 : (!re.truthy && le.truthy) = true := by
      rw [hr, hl]
      rfl
    rw [if_pos hc1]
    exact ⟨_, rfl, rfl, dget_dset_self _ _ _⟩
  · intro hr hl
    have hc1 : ¬((!re.truthy && le.truthy) = true) := by
      rw [hr, hl]
      simp
    have hc2 : (re.truthy && !le.truthy) = true := by
      rw [hr, hl]
      rfl
    rw [if_neg hc1, if_pos hc2]
    refine ⟨_, rfl, rfl, ?_, hl⟩
    rw [dget_mergeLocal]
    have hmem : ("@enabled", le) ∈ localCfg := mem_of_lookup_eq_some hle
    have hsome : (localCfg.reverse.find? (fun p => stripAt p.1 == "enabled")).isSome = true := by
      rw [List.find?_isSome]
      exact ⟨("@enabled", le), List.mem_reverse.mpr hmem, by rfl⟩
    obtain ⟨q, hq⟩ := Option.isSome_iff_exists.mp hsome
    rw [hq]
    have hqmem : q ∈ localCfg := List.mem_reverse.mp (List.mem_of_find?_eq_some hq)
    have hqpred : stripAt q.1 = "enabled" := by
      have := List.find?_some hq
      simpa using this
    have hqkey : q.1 = "@enabled" := hkeys q hqmem hqpred
    have hlk : List.lookup "@enabled" localCfg = some le := hle
    have hlk2 : List.lookup q.1 localCfg = some q.2 := lookup_eq_of_mem_nodup hnd hqmem
    rw [hqkey, hlk] at hlk2
    cases hlk2
    rfl

/-- C7 witness: with a peer-enabled reply and a locally disabled
mirror, nothing is written back and the merged entry is disabled. -/
theorem reconcileRemoteListing_contract_witness :
    ∃ o, reconcileRemoteListing 3 [("@enabled", JVal.b false), ("@name", JVal.s "cam")]
        [("enabled", JVal.b true), ("framerate", JVal.n 5)] = some o ∧
      o.localWrite = none ∧
      dget o.merged "enabled" = some (JVal.b false) ∧ (JVal.b false).truthy = false :=
  (reconcileRemoteListing_contract 3 [("@enabled", JVal.b false), ("@name", JVal.s "cam")]
    [("enabled", JVal.b true), ("framerate", JVal.n 5)] (JVal.b true) (JVal.b false)
    (by rfl) (by rfl) (by decide) (by decide)).2 (by rfl) (by rfl)

/-! ### Claim theorems: time-lapse tracker, previews, camera listing -/

/-- C8: a time-lapse start request on a local camera while a render is
already running (`progress != -1`) starts no new job and responds with
the running job's progress; a new job starts only when the tracker is
idle (`progress == -1`), and then the response carries `-1`. -/
theorem timelapseStart_exclusive (status : TimelapseStatus) :
    (status.progress ≠ -1 →
      timelapseStartLocal status =
        { jobStarted := false, responseProgress := status.progress }) ∧
    (status.progress = -1 →
      timelapseStartLocal status = { jobStarted := true, responseProgress := -1 }) := by
  unfold timelapseStartLocal
  constructor <;> intro h <;> simp [h]

/-- C8 witness: with a job at 55 percent, a second start request starts
nothing and reports 55. -/
theorem timelapseStart_exclusive_witness :
    timelapseStartLocal ⟨55, none⟩ = { jobStarted := false, responseProgress := 55 } :=
  (timelapseStart_exclusive ⟨55, none⟩).1 (by decide)

/-- C9: every preview branch (picture or movie, local or remote) serves
a truthy content as `image/jpeg` and otherwise substitutes the
`no-preview.svg` placeholder as `image/svg+xml` — on the remote
branches even when the peer reported an error, so no error payload is
ever produced. -/
theorem preview_placeholder_fallback (placeholder : String) (content : Option String)
    (err : Option String) :
    (optTruthy content = false →
      previewPictureLocal placeholder content = ("image/svg+xml", placeholder) ∧
      previewMovieLocal placeholder content = ("image/svg+xml", placeholder) ∧
      previewPictureRemote placeholder content err = ("image/svg+xml", placeholder) ∧
      previewMovieRemote placeholder content err = ("image/svg+xml", placeholder)) ∧
    (∀ c, content = some c → c ≠ "" →
      previewPictureLocal placeholder content = ("image/jpeg", c) ∧
      previewMovieLocal placeholder content = ("image/jpeg", c) ∧
      previewPictureRemote placeholder content err = ("image/jpeg", c) ∧
      previewMovieRemote placeholder content err = ("image/jpeg", c)) := by
  unfold previewPictureLocal previewMovieLocal previewPictureRemote previewMovieRemote
  constructor
  · intro h
    simp [h]
  · intro c hc hne
    subst hc
    simp [optTruthy, hne]

/-- C9 witness: with no content available (and a peer error on the
remote branches), every branch serves the SVG placeholder. -/
theorem preview_placeholder_fallback_witness :
    previewPictureLocal "PLACEHOLDER" none = ("image/svg+xml", "PLACEHOLDER") ∧
    previewMovieLocal "PLACEHOLDER" none = ("image/svg+xml", "PLACEHOLDER") ∧
    previewPictureRemote "PLACEHOLDER" none (some "peer down") =
      ("image/svg+xml", "PLACEHOLDER") ∧
    previewMovieRemote "PLACEHOLDER" none (some "peer down") =
      ("image/svg+xml", "PLACEHOLDER") :=
  (preview_placeholder_fallback "PLACEHOLDER" none (some "peer down")).1 (by decide)

theorem entryList_length (prettyUrl : Dict → String) (force : Bool) :
    ∀ (cams : List (Int × CamSource)) (es : List Dict),
      entryList prettyUrl force cams = some es → es.length = cams.length := by
  intro cams
  induction cams with
  | nil =>
    intro es h
    cases h
    rfl
  | cons c rest ih =>
    intro es h
    unfold entryList at h
    cases he : cameraEntry prettyUrl force c.1 c.2 with
    | none => rw [he] at h; cases h
    | some e =>
      cases ht : entryList prettyUrl force rest with
      | none => rw [he, ht] at h; cases h
      | some t =>
        rw [he, ht] at h
        cases h
        simp [ih t ht]

theorem entryList_mem (prettyUrl : Dict → String) (force : Bool) :
    ∀ (cams : List (Int × CamSource)) (es : List Dict),
      entryList prettyUrl force cams = some es →
      ∀ c ∈ cams, ∃ e, cameraEntry prettyUrl force c.1 c.2 = some e ∧ e ∈ es := by
  intro cams
  induction cams with
  | nil =>
    intro es h c hc
    simp at hc
  | cons a rest ih =>
    intro es h c hc
    unfold entryList at h
    cases he : cameraEntry prettyUrl force a.1 a.2 with
    | none => rw [he] at h; cases h
    | some e =>
      cases ht : entryList prettyUrl force rest with
      | none => rw [he, ht] at h; cases h
      | some t =>
        rw [he, ht] at h
        cases h
        rcases List.mem_cons.mp hc with rfl | hm
        · exact ⟨e, he, List.mem_cons_self _ _⟩
        · obtain ⟨e2, he2, hme2⟩ := ih t ht c hm
          exact ⟨e2, he2, List.mem_cons_of_mem _ hme2⟩

theorem cameraEntry_failed_remote (prettyUrl : Dict → String) (force : Bool)
    (cameraId : Int) (lc : Dict) (peer : Option Dict)
    (hfail : peer = none ∨ (localEnabledFlag lc = false ∧ force = false)) :
    cameraEntry prettyUrl force cameraId (CamSource.remoteCam lc peer) =
      some (placeholderEntry prettyUrl cameraId lc) := by
  unfold cameraEntry
  dsimp only
  rcases hfail with rfl | ⟨hen, rfl⟩
  · cases hf : (localEnabledFlag lc || false) <;> simp [hf]
  · rw [hen]
    rfl

/-- C10: in a completed local camera listing, every configured camera
contributes exactly one entry, and a remote camera whose peer query
failed (or which is locally disabled and therefore never contacted)
appears as the placeholder entry carrying that camera's id,
`enabled: False` and a name derived from the peer's URL, while the
other cameras are listed normally. -/
theorem listCameras_failed_remote_placeholder (prettyUrl : Dict → String) (force : Bool)
    (cams : List (Int × CamSource)) (out : List Dict)
    (hout : listCamerasLocal prettyUrl force cams = some out) :
    out.length = cams.length ∧
    ∀ cameraId lc peer, (cameraId, CamSource.remoteCam lc peer) ∈ cams →
      (peer = none ∨ (localEnabledFlag lc = false ∧ force = false)) →
      placeholderEntry prettyUrl cameraId lc ∈ out ∧
      dget (placeholderEntry prettyUrl cameraId lc) "id" = some (JVal.n cameraId) ∧
      dget (placeholderEntry prettyUrl cameraId lc) "enabled" = some (JVal.b false) ∧
      dget (placeholderEntry prettyUrl cameraId lc) "name" =
        some (JVal.s ("&lt;" ++ prettyUrl lc ++ "&gt;")) := by
  unfold listCamerasLocal at hout
  obtain ⟨es, hes, hsort⟩ := Option.map_eq_some'.mp hout
  constructor
  · rw [← hsort]
    unfold sortById
    rw [List.length_mergeSort]
    exact entryList_length prettyUrl force cams es hes
  · intro cameraId lc peer hmem hfail
    have hce := cameraEntry_failed_remote prettyUrl force cameraId lc peer hfail
    obtain ⟨e, he, hmes⟩ :=
      entryList_mem prettyUrl force cams es hes (cameraId, CamSource.remoteCam lc peer) hmem
    rw [hce] at he
    cases he
    refine ⟨?_, rfl, rfl, rfl⟩
    rw [← hsort]
    unfold sortById
    exact List.mem_mergeSort.mpr hmes

/-- C10 witness: a listing containing one enabled remote camera whose
peer query failed completes with exactly its placeholder entry. -/
theorem listCameras_failed_remote_placeholder_witness :
    ((listCamerasLocal (fun _ => "http://peer") false
        [(2, CamSource.remoteCam [("@enabled", JVal.b true)] none)]).map
      List.length = some 1) ∧
    ∀ out, listCamerasLocal (fun _ => "http://peer") false
        [(2, CamSource.remoteCam [("@enabled", JVal.b true)] none)] = some out →
      placeholderEntry (fun _ => "http://peer") 2 [("@enabled", JVal.b true)] ∈ out := by
  have hout : listCamerasLocal (fun _ => "http://peer") false
      [(2, CamSource.remoteCam [("@enabled", JVal.b true)] none)] =
      some (sortById [placeholderEntry (fun _ => "http://peer") 2
        [("@enabled", JVal.b true)]]) := rfl
  constructor
  · rw [hout]
    have := (listCameras_failed_remote_placeholder (fun _ => "http://peer") false
      [(2, CamSource.remoteCam [("@enabled", JVal.b true)] none)] _ hout).1
    simp only [Option.map_some']
    rw [this]
    rfl
  · intro out h
    rw [hout] at h
    cases h
    exact ((listCameras_failed_remote_placeholder (fun _ => "http://peer") false
      [(2, CamSource.remoteCam [("@enabled", JVal.b true)] none)] _ hout).2
      2 [("@enabled", JVal.b true)] none (by simp) (Or.inl rfl)).1

end MotionEye
